import Mathlib

/-!
Verification of the `virtual-kubelet-apptainer` provider.

Part A embeds the concrete Go source under `internal/provider`,
`internal/metrics` and `cmd/virtual-kubelet` (node capacity setup,
node configuration, provider construction, and the `run` glue that
calls `ConfigureNode` before checking the returned error).

Part B models the pod lifecycle and status-synchronization engine.
The repository's source for that engine is a stub (every lifecycle
method returns nil); the specification describes the engine's design
in full.  Each definition of Part B therefore carries a doc comment
starting `Modelled from the spec:` naming what it stands for.
-/

namespace VKApptainer

/-- The process environment, as seen through Go's `os.Getenv`: a total
map from variable names to values, where an unset variable reads as the
empty string. -/
def Env : Type := String → String

/-- `internal/metrics`: `ApptaienrMetricsProvider` is an empty struct
(the misspelling is the source's). -/
structure ApptaienrMetricsProvider where
deriving DecidableEq, Repr

/-- `internal/metrics`: `NewApptaienrMetricsProver` allocates the empty
metrics provider. -/
def NewApptaienrMetricsProver : ApptaienrMetricsProvider := {}

/-- `internal/provider`: the `gpuResourceName` constant. -/
def gpuResourceName : String := "nvidia.com/gpu"

/-- `internal/provider`: the `ApptainerProvider` struct.  Resource
quantities are kept as their unparsed strings; `resource.MustParse` is
external k8s machinery not modelled here. -/
structure ApptainerProvider where
  nodeName : String
  operatingSystem : String
  cpu : String
  memory : String
  pods : String
  gpu : String
  internalIP : String
  daemonEndpointPort : Int
  metricsProvider : ApptaienrMetricsProvider
deriving DecidableEq, Repr

/-- A Go `error` value: `none` is Go's nil error. -/
def GoError : Type := String

/-- `provider.setupNodeCapacity`: sets the default capacity strings,
then overrides each from its `APPTAINER_QUOTA_*` environment variable
when that variable is non-empty; unconditionally returns nil error.
The returned pair mirrors Go's (mutated receiver, error) outcome. -/
def ApptainerProvider.setupNodeCapacity (env : Env) (p : ApptainerProvider) :
    ApptainerProvider × Option GoError :=
  let p := { p with cpu := "64", memory := "512Gi", pods := "640" }
  let p := if env "APPTAINER_QUOTA_CPU" ≠ "" then { p with cpu := env "APPTAINER_QUOTA_CPU" } else p
  let p := if env "APPTAINER_QUOTA_MEMORY" ≠ "" then { p with memory := env "APPTAINER_QUOTA_MEMORY" } else p
  let p := if env "APPTAINER_QUOTA_POD" ≠ "" then { p with pods := env "APPTAINER_QUOTA_POD" } else p
  let p := if env "APPTAINER_QUOTA_GPU" ≠ "" then { p with gpu := env "APPTAINER_QUOTA_GPU" } else p
  (p, none)

/-- `provider.NewApptainerProvider`: fills in the constructor arguments,
runs `setupNodeCapacity` (propagating its error with a nil provider, as
the Go code returns `nil, err`), then attaches the metrics provider.
The result mirrors Go's `(*ApptainerProvider, error)` pair, where a
`none` first component is a nil pointer. -/
def NewApptainerProvider (env : Env) (nodeName operatingSystem internalIP : String)
    (daemonEndpointPort : Int) : Option ApptainerProvider × Option GoError :=
  let p : ApptainerProvider :=
    { nodeName := nodeName
      operatingSystem := operatingSystem
      cpu := ""
      memory := ""
      pods := ""
      gpu := ""
      internalIP := internalIP
      daemonEndpointPort := daemonEndpointPort
      metricsProvider := {} }
  match p.setupNodeCapacity env with
  | (_, some err) => (none, some err)
  | (p, none) => (some { p with metricsProvider := NewApptaienrMetricsProver }, none)

/-- A k8s `v1.ResourceList`, as the association of resource names to
quantity strings in insertion order. -/
abbrev ResourceList : Type := List (String × String)

/-- `provider.capacity`: the resource list with cpu, memory and pods
always present, and the GPU resource present exactly when `p.gpu` is
non-empty. -/
def ApptainerProvider.capacity (p : ApptainerProvider) : ResourceList :=
  let base : List (String × String) := [("cpu", p.cpu), ("memory", p.memory), ("pods", p.pods)]
  if p.gpu ≠ "" then base ++ [(gpuResourceName, p.gpu)] else base

/-- A node condition, as built by `provider.nodeConditions`; the
heartbeat/transition timestamps of `metav1.Now()` are abstracted as a
caller-supplied clock value. -/
structure NodeCondition where
  type : String
  status : String
  lastHeartbeatTime : Nat
  lastTransitionTime : Nat
  reason : String
  message : String

/-- `provider.nodeConditions`: the fixed five conditions. -/
def ApptainerProvider.nodeConditions (now : Nat) : List NodeCondition :=
  [ { type := "Ready", status := "True", lastHeartbeatTime := now,
      lastTransitionTime := now, reason := "KubeletReady",
      message := "kubelet is ready." },
    { type := "OutOfDisk", status := "False", lastHeartbeatTime := now,
      lastTransitionTime := now, reason := "KubeletHasSufficientDisk",
      message := "kubelet has sufficient disk space available" },
    { type := "MemoryPressure", status := "False", lastHeartbeatTime := now,
      lastTransitionTime := now, reason := "KubeletHasSufficientMemory",
      message := "kubelet has sufficient memory available" },
    { type := "DiskPressure", status := "False", lastHeartbeatTime := now,
      lastTransitionTime := now, reason := "KubeletHasNoDiskPressure",
      message := "kubelet has no disk pressure" },
    { type := "NetworkUnavailable", status := "False", lastHeartbeatTime := now,
      lastTransitionTime := now, reason := "RouteCreated",
      message := "RouteController created a route" } ]

/-- A node address, as built by `provider.nodeAddresses`. -/
structure NodeAddress where
  type : String
  address : String

/-- `provider.nodeAddresses`. -/
def ApptainerProvider.nodeAddresses (p : ApptainerProvider) : List NodeAddress :=
  [{ type := "InternalIP", address := p.internalIP }]

/-- `provider.nodeDaemonEndpoints`: just the kubelet endpoint port. -/
def ApptainerProvider.nodeDaemonEndpoints (p : ApptainerProvider) : Int :=
  p.daemonEndpointPort

/-- The parts of a k8s `v1.Node` that `ConfigureNode` touches. -/
structure NodeStatus where
  capacity : ResourceList
  allocatable : ResourceList
  conditions : List NodeCondition
  addresses : List NodeAddress
  daemonEndpointPort : Int
  operatingSystem : String

/-- A k8s `v1.Node`: status plus object-metadata labels. -/
structure Node where
  status : NodeStatus
  labels : List (String × String)

/-- Go map assignment `labels[k] = v` on the label association list. -/
def setLabel (labels : List (String × String)) (k v : String) :
    List (String × String) :=
  match labels with
  | [] => [(k, v)]
  | (k', v') :: rest => if k' = k then (k, v) :: rest else (k', v') :: setLabel rest k v

/-- `provider.ConfigureNode`: writes capacity, allocatable, conditions,
addresses, daemon endpoint and OS info into the node, and sets the four
exclusion/OS labels.  `now` abstracts `metav1.Now()`. -/
def ApptainerProvider.ConfigureNode (p : ApptainerProvider) (now : Nat) (node : Node) : Node :=
  let status := { node.status with
    capacity := p.capacity
    allocatable := p.capacity
    conditions := ApptainerProvider.nodeConditions now
    addresses := p.nodeAddresses
    daemonEndpointPort := p.nodeDaemonEndpoints
    operatingSystem := p.operatingSystem }
  let labels := setLabel node.labels "alpha.service-controller.kubernetes.io/exclude-balancer" "true"
  let labels := setLabel labels "node.kubernetes.io/exclude-from-external-load-balancers" "true"
  let osLabel := p.operatingSystem.toLower
  let labels := setLabel labels "beta.kubernetes.io/os" osLabel
  let labels := setLabel labels "kubernetes.io/os" osLabel
  { status := status, labels := labels }

/-- `cmd/virtual-kubelet/main.go` provider closure inside `run`: calls
`NewApptainerProvider` and then invokes `p.ConfigureNode` BEFORE the
returned error is checked.  A `none` result models the nil-pointer
dereference that would occur if the provider were nil at that call. -/
def runProviderSetup (env : Env) (nodeName operatingSystem internalIP : String)
    (listenPort : Int) (now : Nat) (cfgNode : Node) : Option (ApptainerProvider × Node) :=
  let (pOpt, _err) := NewApptainerProvider env nodeName operatingSystem internalIP listenPort
  match pOpt with
  | none => none
  | some p => some (p, p.ConfigureNode now cfgNode)

/-!
Part B: the pod lifecycle and status-synchronization engine.

The repository source stubs the engine out: `CreatePod`, `UpdatePod`
and `DeletePod` return nil and `GetPod`/`GetPodStatus` return
`nil, nil`.  The spec describes the missing core — Pod Record Store,
Operation Dispatcher and Status Reconciler — so the definitions below
are modelled from the spec's words and carry doc comments saying so.
-/

/-- Modelled from the spec: the `lifecycleState` enumeration of a
PodRecord (missing engine core; spec section 3). -/
inductive LifecycleState where
  | Pending
  | Creating
  | Running
  | Updating
  | Terminating
  | Terminated
  | Failed
deriving DecidableEq, Repr

/-- Modelled from the spec: a terminal state is `Terminated` or
`Failed` — no further backend-driven transition expected (glossary). -/
def LifecycleState.isTerminal : LifecycleState → Bool
  | .Terminated => true
  | .Failed => true
  | _ => false

/-- Modelled from the spec: the error taxonomy of section 7 (missing
engine core). -/
inductive EngineError where
  | Conflict
  | StaleGeneration
  | BackendTransient
  | BackendPermanent
  | BackendUnreachable
  | NotFound
deriving DecidableEq, Repr

/-- Modelled from the spec: a PodRecord, the authoritative unit of
state of the missing engine core (spec section 3).  The remote handle
is an opaque reference, here a number; the spec snapshot is opaque. -/
structure PodRecord where
  identity : String
  specSnapshot : String
  lifecycleState : LifecycleState
  remoteHandle : Option Nat
  lastObservedAt : Nat
  generation : Nat
  lastError : Option EngineError
deriving DecidableEq, Repr

/-- Modelled from the spec: the Pod Record Store's map from identity to
record, as an association list with at most one live binding per key
(the lookup always takes the first binding). -/
abbrev Store : Type := List (String × PodRecord)

/-- Modelled from the spec: `get(identity)` of the Pod Record Store. -/
def Store.get (st : Store) (id : String) : Option PodRecord :=
  match st with
  | [] => none
  | (k, r) :: rest => if k = id then some r else Store.get rest id

/-- Modelled from the spec: the write half of `upsert(identity,
mutatorFn)` — replace the binding for `id` in place, or append it. -/
def Store.put (st : Store) (id : String) (r : PodRecord) : Store :=
  match st with
  | [] => [(id, r)]
  | (k, v) :: rest => if k = id then (id, r) :: rest else (k, v) :: Store.put rest id r

/-- Modelled from the spec: one Notification Sink invocation
`notify(identity, status)` (spec sections 4.4 and 6). -/
structure Notification where
  identity : String
  status : LifecycleState
deriving DecidableEq, Repr

/-- Modelled from the spec: the engine's shared state — the Pod Record
Store plus the log of Notification Sink invocations made so far.  Task
dispatch and backend completions are modelled as explicit asynchronous
events rather than a queue. -/
structure EngineState where
  store : Store
  notifications : List Notification
deriving DecidableEq, Repr

/-- Modelled from the spec: the engine before any intent was accepted:
empty store, no notifications. -/
def initialState : EngineState :=
  { store := [], notifications := [] }

/-- Modelled from the spec: the generation a freshly accepted create
gives its record — the counter continues past any terminal record being
replaced, so it only increases per identity (spec section 3). -/
def nextGeneration (st : Store) (id : String) : Nat :=
  match Store.get st id with
  | none => 1
  | some r => r.generation + 1

/-- Modelled from the spec: the Operation Dispatcher's `Create(spec)`
(spec section 4.2).  If the identity maps to a non-terminal record the
create is rejected as a `Conflict` and no state is produced; otherwise
a `Pending` record (no remote handle yet) is inserted and a `Creating`
task is enqueued (dispatch modelled as an asynchronous event).
`freshRecord` is that inserted record. -/
def freshRecord (id spec : String) (gen : Nat) : PodRecord :=
  { identity := id, specSnapshot := spec, lifecycleState := .Pending,
    remoteHandle := none, lastObservedAt := 0,
    generation := gen, lastError := none }

/-- Modelled from the spec: `Create(spec)` of the Operation Dispatcher
(spec section 4.2); see `freshRecord` above for the inserted record. -/
def create (s : EngineState) (id spec : String) : Except EngineError EngineState :=
  match Store.get s.store id with
  | some r =>
    if r.lifecycleState.isTerminal then
      Except.ok { s with store := Store.put s.store id (freshRecord id spec (r.generation + 1)) }
    else
      Except.error EngineError.Conflict
  | none =>
    Except.ok { s with store := Store.put s.store id (freshRecord id spec 1) }

/-- Modelled from the spec: the Operation Dispatcher's `Update(spec)`
(spec section 4.2): the identity must map to an existing record not in
`Terminating`/`Terminated` (`NotFound` or `Conflict` otherwise); the
accepted intent bumps the generation and snapshots the new spec, and a
`Running` record enters `Updating` (keeping its remote handle) while
records not yet running keep their state for their in-flight task. -/
def update (s : EngineState) (id spec : String) : Except EngineError EngineState :=
  match Store.get s.store id with
  | none => Except.error EngineError.NotFound
  | some r =>
    if r.lifecycleState = .Terminating ∨ r.lifecycleState = .Terminated then
      Except.error EngineError.Conflict
    else
      let r' : PodRecord :=
        { r with specSnapshot := spec,
                 generation := r.generation + 1,
                 lifecycleState :=
                   if r.lifecycleState = .Running then .Updating else r.lifecycleState }
      Except.ok { s with store := Store.put s.store id r' }

/-- Modelled from the spec: the Operation Dispatcher's
`Delete(identity)` (spec sections 4.2 and 8), which never errors.  A
missing or `Terminated` record — and a record already `Terminating`,
whose teardown is in flight — signals nothing to do, so the call is a
no-op success and a repeated Delete is a no-op (spec section 8).  A
record holding a remote handle bumps its generation and is marked
`Terminating` with teardown enqueued; a record that never obtained a
remote handle has nothing to tear down and transitions directly to
`Terminated` (preserving the handle/state invariant of section 3),
notifying the sink when that is a genuine terminal transition. -/
def delete (s : EngineState) (id : String) : EngineState :=
  match Store.get s.store id with
  | none => s
  | some r =>
    if r.lifecycleState = .Terminated ∨ r.lifecycleState = .Terminating then s
    else if r.remoteHandle.isSome then
      let r' : PodRecord :=
        { r with lifecycleState := .Terminating, generation := r.generation + 1 }
      { s with store := Store.put s.store id r' }
    else
      let r' : PodRecord :=
        { r with lifecycleState := .Terminated, remoteHandle := none,
                 generation := r.generation + 1 }
      let notes :=
        if r.lifecycleState.isTerminal then s.notifications
        else s.notifications ++ [{ identity := id, status := .Terminated }]
      { s with store := Store.put s.store id r', notifications := notes }

/-- Modelled from the spec: what a Remote Executor `status(handle)`
poll reports back to the Status Reconciler (spec sections 4.3 and 6):
running/healthy, exited (cleanly or with an error), or unreachable
beyond the grace threshold. -/
inductive RemoteObs where
  | running
  | exited (clean : Bool)
  | unreachable
deriving DecidableEq, Repr

/-- Modelled from the spec: the asynchronous completions of the missing
engine core — per-identity Dispatcher task steps and Status Reconciler
observations, each tagged with the generation it was issued under so
stale results can be discarded (spec sections 4.2, 4.3 and 5). -/
inductive AsyncEvent where
  | dispatchCreate (id : String) (gen : Nat)
  | backendStarted (id : String) (gen : Nat) (handle : Nat)
  | updateDone (id : String) (gen : Nat)
  | teardownDone (id : String) (gen : Nat)
  | backendFailed (id : String) (gen : Nat) (err : EngineError)
  | observe (id : String) (gen : Nat) (obs : RemoteObs) (time : Nat)
deriving DecidableEq, Repr

/-- Modelled from the spec: the identity and generation tag every
asynchronous result carries, whichever kind it is (spec sections 3
and 5). -/
def AsyncEvent.target : AsyncEvent → String × Nat
  | .dispatchCreate id gen => (id, gen)
  | .backendStarted id gen _ => (id, gen)
  | .updateDone id gen => (id, gen)
  | .teardownDone id gen => (id, gen)
  | .backendFailed id gen _ => (id, gen)
  | .observe id gen _ _ => (id, gen)

/-- Modelled from the spec: applying one asynchronous completion to the
engine state.  Every event carries a generation and is discarded when
it does not match the record's current generation (stale-write
protection, spec sections 3 and 5); the Status Reconciler skips records
that are terminal or hold no remote handle (spec section 4.3); genuine
terminal transitions invoke the Notification Sink exactly once. -/
def applyEvent (s : EngineState) (e : AsyncEvent) : EngineState :=
  match e with
  | .dispatchCreate id gen =>
    match Store.get s.store id with
    | some r =>
      if r.generation = gen ∧ r.lifecycleState = .Pending then
        let r' : PodRecord := { r with lifecycleState := .Creating }
        { s with store := Store.put s.store id r' }
      else s
    | none => s
  | .backendStarted id gen handle =>
    match Store.get s.store id with
    | some r =>
      if r.generation = gen ∧ r.lifecycleState = .Creating then
        let r' : PodRecord :=
          { r with lifecycleState := .Running, remoteHandle := some handle,
                   lastError := none }
        { s with store := Store.put s.store id r' }
      else s
    | none => s
  | .updateDone id gen =>
    match Store.get s.store id with
    | some r =>
      if r.generation = gen ∧ r.lifecycleState = .Updating then
        let r' : PodRecord := { r with lifecycleState := .Running, lastError := none }
        { s with store := Store.put s.store id r' }
      else s
    | none => s
  | .teardownDone id gen =>
    match Store.get s.store id with
    | some r =>
      if r.generation = gen ∧ r.lifecycleState = .Terminating then
        let r' : PodRecord :=
          { r with lifecycleState := .Terminated, remoteHandle := none }
        { s with store := Store.put s.store id r',
                 notifications := s.notifications ++ [{ identity := id, status := .Terminated }] }
      else s
    | none => s
  | .backendFailed id gen err =>
    match Store.get s.store id with
    | some r =>
      if r.generation = gen ∧
          (r.lifecycleState = .Creating ∨ r.lifecycleState = .Updating) then
        let r' : PodRecord :=
          { r with lifecycleState := .Failed, remoteHandle := none,
                   lastError := some err }
        { s with store := Store.put s.store id r',
                 notifications := s.notifications ++ [{ identity := id, status := .Failed }] }
      else s
    | none => s
  | .observe id gen obs time =>
    match Store.get s.store id with
    | some r =>
      if r.generation = gen ∧ r.lifecycleState.isTerminal = false ∧
          r.remoteHandle.isSome = true then
        match obs with
        | .running =>
          let r' : PodRecord := { r with lastObservedAt := time }
          { s with store := Store.put s.store id r' }
        | .exited clean =>
          if clean then
            let r' : PodRecord :=
              { r with lifecycleState := .Terminated, remoteHandle := none,
                       lastObservedAt := time }
            { s with store := Store.put s.store id r',
                     notifications := s.notifications ++ [{ identity := id, status := .Terminated }] }
          else
            let r' : PodRecord :=
              { r with lifecycleState := .Failed, remoteHandle := none,
                       lastError := some EngineError.BackendPermanent,
                       lastObservedAt := time }
            { s with store := Store.put s.store id r',
                     notifications := s.notifications ++ [{ identity := id, status := .Failed }] }
        | .unreachable =>
          let r' : PodRecord :=
            { r with lifecycleState := .Failed, remoteHandle := none,
                     lastError := some EngineError.BackendUnreachable,
                     lastObservedAt := time }
          { s with store := Store.put s.store id r',
                   notifications := s.notifications ++ [{ identity := id, status := .Failed }] }
      else s
    | none => s

/-- Modelled from the spec: `Query(identity)` served directly from the
Pod Record Store (spec section 4.2); an unknown identity surfaces
`NotFound` (spec section 7).  Returns the record snapshot (`GetPod`). -/
def getPod (s : EngineState) (id : String) : Except EngineError PodRecord :=
  match Store.get s.store id with
  | none => Except.error EngineError.NotFound
  | some r => Except.ok r

/-- Modelled from the spec: the status query (`GetPodStatus`), served
from the store; an unknown identity surfaces `NotFound`. -/
def getPodStatus (s : EngineState) (id : String) : Except EngineError LifecycleState :=
  match Store.get s.store id with
  | none => Except.error EngineError.NotFound
  | some r => Except.ok r.lifecycleState

/-- Modelled from the spec: one engine step — an accepted intent
(rejected intents leave the state unchanged and are not steps), or one
asynchronous completion. -/
inductive Step : EngineState → EngineState → Prop where
  | createOk {s s' : EngineState} {id spec : String} :
      create s id spec = Except.ok s' → Step s s'
  | updateOk {s s' : EngineState} {id spec : String} :
      update s id spec = Except.ok s' → Step s s'
  | deleteStep (s : EngineState) (id : String) : Step s (delete s id)
  | asyncStep (s : EngineState) (e : AsyncEvent) : Step s (applyEvent s e)

/-- Modelled from the spec: the reachable engine states — everything
the engine can be in after any sequence of accepted intents and
asynchronous completions starting from the empty engine. -/
inductive Reachable : EngineState → Prop where
  | init : Reachable initialState
  | step {s s' : EngineState} : Reachable s → Step s s' → Reachable s'

/-- Modelled from the spec: the handle/state invariant of section 3 for
one record — the remote handle is set exactly when the state is
`Running`, `Updating` or `Terminating` (the `Creating` transient is
collapsed here: the backend call returning and the move to `Running`
are one event). -/
def statesWithHandle : LifecycleState → Bool
  | .Running => true
  | .Updating => true
  | .Terminating => true
  | _ => false

/-- Modelled from the spec: the handle/state invariant for one record,
as a decidable check. -/
def handleOK (r : PodRecord) : Bool :=
  r.remoteHandle.isSome == statesWithHandle r.lifecycleState

/-- Modelled from the spec: the store-wide handle/state invariant. -/
def handleInvariant (s : EngineState) : Prop :=
  ∀ id r, Store.get s.store id = some r → handleOK r = true

/-- The engine state right after `Create` of identity `a` was accepted
on the empty engine: one `Pending` record at generation 1. -/
def createDemoState : EngineState :=
  { store := [("a", freshRecord "a" "img" 1)], notifications := [] }

/-- A record for identity `a` that has reached `Running` with remote
handle 7 at generation 2. -/
def runningDemoRecord : PodRecord :=
  { identity := "a", specSnapshot := "img", lifecycleState := .Running,
    remoteHandle := some 7, lastObservedAt := 0, generation := 2,
    lastError := none }

/-- An engine state holding the single running record above. -/
def runningDemoState : EngineState :=
  { store := [("a", runningDemoRecord)], notifications := [] }

/-- A concrete environment: only the GPU quota variable is set. -/
def demoEnv : Env := fun k => if k = "APPTAINER_QUOTA_GPU" then "2" else ""

/-- The provider `NewApptainerProvider` builds under `demoEnv`. -/
def demoProvider : ApptainerProvider :=
  { nodeName := "vk", operatingSystem := "Linux", cpu := "64",
    memory := "512Gi", pods := "640", gpu := "2",
    internalIP := "10.0.0.1", daemonEndpointPort := 10250,
    metricsProvider := {} }

/-!
Theorems.  The store lemma `Store.get_put` and the per-step lemmas
`step_preserves_handleOK` / `step_generation_mono` are shared helpers;
each claim is settled by exactly one theorem below.
-/

/-- Reading back through a `put`: the written binding shadows the old
one and nothing else moves. -/
theorem Store.get_put (st : Store) (id id' : String) (r : PodRecord) :
    Store.get (Store.put st id r) id' =
      if id = id' then some r else Store.get st id' := by
  induction st with
  | nil => simp [Store.put, Store.get]
  | cons hd tl ih =>
    obtain ⟨k, v⟩ := hd
    by_cases hk : k = id
    · subst hk
      by_cases h2 : k = id' <;> simp [Store.put, Store.get, h2]
    · by_cases h2 : k = id'
      · have h3 : id ≠ id' := by
          intro h
          exact hk (h2.trans h.symm)
        simp [Store.put, Store.get, hk, h2, h3, Ne.symm h3]
      · simp [Store.put, Store.get, hk, h2, ih]

/-- Writing a record that satisfies the handle/state check into a store
that satisfies it everywhere keeps the store-wide invariant, whatever
happens to the notification log. -/
theorem handleInvariant_put {st : Store}
    (inv : ∀ id r, Store.get st id = some r → handleOK r = true)
    {id : String} {r' : PodRecord} (hok : handleOK r' = true)
    {notes : List Notification} :
    handleInvariant { store := Store.put st id r', notifications := notes } := by
  intro id' r hget
  simp only [Store.get_put] at hget
  by_cases hid : id = id'
  · rw [if_pos hid] at hget
    cases hget
    exact hok
  · rw [if_neg hid] at hget
    exact inv id' r hget

/-- A record satisfying the handle/state check and known to be in a
given lifecycle state determines whether its handle is set. -/
theorem handleOK_isSome {r : PodRecord} (h : handleOK r = true) :
    r.remoteHandle.isSome = statesWithHandle r.lifecycleState := by
  unfold handleOK at h
  exact beq_iff_eq.mp h

/-- Every engine step preserves the handle/state invariant. -/
theorem step_preserves_handleOK {s s' : EngineState} (h : Step s s')
    (inv : handleInvariant s) : handleInvariant s' := by
  cases h with
  | @createOk _ id spec hc =>
    cases hget : Store.get s.store id with
    | none =>
      simp only [create, hget] at hc
      injection hc with h1
      subst h1
      exact handleInvariant_put inv (by rfl)
    | some r =>
      by_cases hterm : r.lifecycleState.isTerminal = true
      · simp only [create, hget, hterm, if_pos] at hc
        injection hc with h1
        subst h1
        exact handleInvariant_put inv (by rfl)
      · simp only [create, hget, hterm, if_neg] at hc
        cases hc
  | @updateOk _ id spec hc =>
    cases hget : Store.get s.store id with
    | none =>
      simp only [update, hget] at hc
      cases hc
    | some r =>
      by_cases hcond : r.lifecycleState = .Terminating ∨ r.lifecycleState = .Terminated
      · simp only [update, hget, if_pos hcond] at hc
        cases hc
      · simp only [update, hget, if_neg hcond] at hc
        injection hc with h1
        subst h1
        refine handleInvariant_put inv ?_
        have hr := handleOK_isSome (inv id r hget)
        by_cases hrun : r.lifecycleState = .Running
        · simp only [handleOK, hrun, if_pos]
          rw [hrun] at hr
          simp [hr, statesWithHandle]
        · simp only [handleOK, hrun, if_neg]
          simp [hr, statesWithHandle]
  | deleteStep id =>
    cases hget : Store.get s.store id with
    | none =>
      simpa only [delete, hget] using inv
    | some r =>
      by_cases h1 : r.lifecycleState = .Terminated ∨ r.lifecycleState = .Terminating
      · simpa only [delete, hget, if_pos h1] using inv
      · by_cases h2 : r.remoteHandle.isSome = true
        · simp only [delete, hget, if_neg h1, h2, if_pos]
          refine handleInvariant_put inv ?_
          simp [handleOK, h2, statesWithHandle]
        · simp only [delete, hget, if_neg h1, h2, if_neg]
          refine handleInvariant_put inv ?_
          simp only [Bool.not_eq_true, Option.not_isSome_iff_eq_none] at h2
          simp [handleOK, statesWithHandle]
  | asyncStep e =>
    cases e with
    | dispatchCreate id gen =>
      cases hget : Store.get s.store id with
      | none => simpa only [applyEvent, hget] using inv
      | some r =>
        by_cases hcond : r.generation = gen ∧ r.lifecycleState = .Pending
        · simp only [applyEvent, hget, if_pos hcond]
          refine handleInvariant_put inv ?_
          have hr := handleOK_isSome (inv id r hget)
          rw [hcond.2] at hr
          simp [handleOK, statesWithHandle, hr]
        · simpa only [applyEvent, hget, if_neg hcond] using inv
    | backendStarted id gen handle =>
      cases hget : Store.get s.store id with
      | none => simpa only [applyEvent, hget] using inv
      | some r =>
        by_cases hcond : r.generation = gen ∧ r.lifecycleState = .Creating
        · simp only [applyEvent, hget, if_pos hcond]
          refine handleInvariant_put inv ?_
          simp [handleOK, statesWithHandle]
        · simpa only [applyEvent, hget, if_neg hcond] using inv
    | updateDone id gen =>
      cases hget : Store.get s.store id with
      | none => simpa only [applyEvent, hget] using inv
      | some r =>
        by_cases hcond : r.generation = gen ∧ r.lifecycleState = .Updating
        · simp only [applyEvent, hget, if_pos hcond]
          refine handleInvariant_put inv ?_
          have hr := handleOK_isSome (inv id r hget)
          rw [hcond.2] at hr
          simp [handleOK, statesWithHandle, hr]
        · simpa only [applyEvent, hget, if_neg hcond] using inv
    | teardownDone id gen =>
      cases hget : Store.get s.store id with
      | none => simpa only [applyEvent, hget] using inv
      | some r =>
        by_cases hcond : r.generation = gen ∧ r.lifecycleState = .Terminating
        · simp only [applyEvent, hget, if_pos hcond]
          refine handleInvariant_put inv ?_
          simp [handleOK, statesWithHandle]
        · simpa only [applyEvent, hget, if_neg hcond] using inv
    | backendFailed id gen err =>
      cases hget : Store.get s.store id with
      | none => simpa only [applyEvent, hget] using inv
      | some r =>
        by_cases hcond : r.generation = gen ∧
            (r.lifecycleState = .Creating ∨ r.lifecycleState = .Updating)
        · simp only [applyEvent, hget, if_pos hcond]
          refine handleInvariant_put inv ?_
          simp [handleOK, statesWithHandle]
        · simpa only [applyEvent, hget, if_neg hcond] using inv
    | observe id gen obs time =>
      cases hget : Store.get s.store id with
      | none => simpa only [applyEvent, hget] using inv
      | some r =>
        by_cases hcond : r.generation = gen ∧ r.lifecycleState.isTerminal = false ∧
            r.remoteHandle.isSome = true
        · cases obs with
          | running =>
            simp only [applyEvent, hget, if_pos hcond]
            refine handleInvariant_put inv ?_
            have hr := handleOK_isSome (inv id r hget)
            simp [handleOK, statesWithHandle, hr]
          | exited clean =>
            cases clean with
            | true =>
              simp only [applyEvent, hget, if_pos hcond, if_pos]
              refine handleInvariant_put inv ?_
              simp [handleOK, statesWithHandle]
            | false =>
              simp only [applyEvent, hget, if_pos hcond]
              refine handleInvariant_put inv ?_
              simp [handleOK, statesWithHandle]
          | unreachable =>
            simp only [applyEvent, hget, if_pos hcond]
            refine handleInvariant_put inv ?_
            simp [handleOK, statesWithHandle]
        · cases obs <;> simpa only [applyEvent, hget, if_neg hcond] using inv

/-- Asynchronous completions never decrease — in fact never change —
the generation of any record, and never drop a record. -/
theorem applyEvent_generation {s : EngineState} (e : AsyncEvent) (id : String)
    (r : PodRecord) (hget : Store.get s.store id = some r) :
    ∃ r', Store.get (applyEvent s e).store id = some r' ∧
      r.generation ≤ r'.generation := by
  cases e with
  | dispatchCreate id0 gen =>
    cases hget0 : Store.get s.store id0 with
    | none => exact ⟨r, by simp [applyEvent, hget0, hget], le_refl _⟩
    | some r0 =>
      by_cases hcond : r0.generation = gen ∧ r0.lifecycleState = .Pending
      · by_cases hid : id0 = id
        · subst hid
          rw [hget0] at hget
          cases hget
          exact ⟨{ r with lifecycleState := .Creating },
            by simp [applyEvent, hget0, if_pos hcond, Store.get_put], le_refl _⟩
        · exact ⟨r, by simp [applyEvent, hget0, if_pos hcond, Store.get_put, hid, hget], le_refl _⟩
      · exact ⟨r, by simp [applyEvent, hget0, if_neg hcond, hget], le_refl _⟩
  | backendStarted id0 gen handle =>
    cases hget0 : Store.get s.store id0 with
    | none => exact ⟨r, by simp [applyEvent, hget0, hget], le_refl _⟩
    | some r0 =>
      by_cases hcond : r0.generation = gen ∧ r0.lifecycleState = .Creating
      · by_cases hid : id0 = id
        · subst hid
          rw [hget0] at hget
          cases hget
          exact ⟨{ r with lifecycleState := .Running, remoteHandle := some handle, lastError := none },
            by simp [applyEvent, hget0, if_pos hcond, Store.get_put], le_refl _⟩
        · exact ⟨r, by simp [applyEvent, hget0, if_pos hcond, Store.get_put, hid, hget], le_refl _⟩
      · exact ⟨r, by simp [applyEvent, hget0, if_neg hcond, hget], le_refl _⟩
  | updateDone id0 gen =>
    cases hget0 : Store.get s.store id0 with
    | none => exact ⟨r, by simp [applyEvent, hget0, hget], le_refl _⟩
    | some r0 =>
      by_cases hcond : r0.generation = gen ∧ r0.lifecycleState = .Updating
      · by_cases hid : id0 = id
        · subst hid
          rw [hget0] at hget
          cases hget
          exact ⟨{ r with lifecycleState := .Running, lastError := none },
            by simp [applyEvent, hget0, if_pos hcond, Store.get_put], le_refl _⟩
        · exact ⟨r, by simp [applyEvent, hget0, if_pos hcond, Store.get_put, hid, hget], le_refl _⟩
      · exact ⟨r, by simp [applyEvent, hget0, if_neg hcond, hget], le_refl _⟩
  | teardownDone id0 gen =>
    cases hget0 : Store.get s.store id0 with
    | none => exact ⟨r, by simp [applyEvent, hget0, hget], le_refl _⟩
    | some r0 =>
      by_cases hcond : r0.generation = gen ∧ r0.lifecycleState = .Terminating
      · by_cases hid : id0 = id
        · subst hid
          rw [hget0] at hget
          cases hget
          exact ⟨{ r with lifecycleState := .Terminated, remoteHandle := none },
            by simp [applyEvent, hget0, if_pos hcond, Store.get_put], le_refl _⟩
        · exact ⟨r, by simp [applyEvent, hget0, if_pos hcond, Store.get_put, hid, hget], le_refl _⟩
      · exact ⟨r, by simp [applyEvent, hget0, if_neg hcond, hget], le_refl _⟩
  | backendFailed id0 gen err =>
    cases hget0 : Store.get s.store id0 with
    | none => exact ⟨r, by simp [applyEvent, hget0, hget], le_refl _⟩
    | some r0 =>
      by_cases hcond : r0.generation = gen ∧
          (r0.lifecycleState = .Creating ∨ r0.lifecycleState = .Updating)
      · by_cases hid : id0 = id
        · subst hid
          rw [hget0] at hget
          cases hget
          exact ⟨{ r with lifecycleState := .Failed, remoteHandle := none, lastError := some err },
            by simp [applyEvent, hget0, if_pos hcond, Store.get_put], le_refl _⟩
        · exact ⟨r, by simp [applyEvent, hget0, if_pos hcond, Store.get_put, hid, hget], le_refl _⟩
      · exact ⟨r, by simp [applyEvent, hget0, if_neg hcond, hget], le_refl _⟩
  | observe id0 gen obs time =>
    cases hget0 : Store.get s.store id0 with
    | none => exact ⟨r, by cases obs <;> simp [applyEvent, hget0, hget], le_refl _⟩
    | some r0 =>
      by_cases hcond : r0.generation = gen ∧ r0.lifecycleState.isTerminal = false ∧
          r0.remoteHandle.isSome = true
      · by_cases hid : id0 = id
        · subst hid
          rw [hget0] at hget
          cases hget
          cases obs with
          | running =>
            exact ⟨{ r with lastObservedAt := time },
              by simp [applyEvent, hget0, if_pos hcond, Store.get_put], le_refl _⟩
          | exited clean =>
            cases clean with
            | true =>
              exact ⟨{ r with lifecycleState := .Terminated, remoteHandle := none, lastObservedAt := time },
                by simp [applyEvent, hget0, if_pos hcond, Store.get_put], le_refl _⟩
            | false =>
              exact ⟨{ r with lifecycleState := .Failed, remoteHandle := none, lastError := some EngineError.BackendPermanent, lastObservedAt := time },
                by simp [applyEvent, hget0, if_pos hcond, Store.get_put], le_refl _⟩
          | unreachable =>
            exact ⟨{ r with lifecycleState := .Failed, remoteHandle := none, lastError := some EngineError.BackendUnreachable, lastObservedAt := time },
              by simp [applyEvent, hget0, if_pos hcond, Store.get_put], le_refl _⟩
        · cases obs with
          | running =>
            exact ⟨r, by simp [applyEvent, hget0, if_pos hcond, Store.get_put, hid, hget], le_refl _⟩
          | exited clean =>
            cases clean with
            | true =>
              exact ⟨r, by simp [applyEvent, hget0, if_pos hcond, Store.get_put, hid, hget], le_refl _⟩
            | false =>
              exact ⟨r, by simp [applyEvent, hget0, if_pos hcond, Store.get_put, hid, hget], le_refl _⟩
          | unreachable =>
            exact ⟨r, by simp [applyEvent, hget0, if_pos hcond, Store.get_put, hid, hget], le_refl _⟩
      · exact ⟨r, by cases obs <;> simp [applyEvent, hget0, if_neg hcond, hget], le_refl _⟩

/-- One engine step never decreases the generation of any record, and
never drops a record. -/
theorem step_generation_mono {s s' : EngineState} (h : Step s s')
    (id : String) (r : PodRecord) (hget : Store.get s.store id = some r) :
    ∃ r', Store.get s'.store id = some r' ∧ r.generation ≤ r'.generation := by
  cases h with
  | @createOk _ id0 spec hc =>
    cases hget0 : Store.get s.store id0 with
    | none =>
      simp only [create, hget0] at hc
      injection hc with h1
      subst h1
      by_cases hid : id0 = id
      · subst hid
        rw [hget0] at hget
        cases hget
      · exact ⟨r, by simp [Store.get_put, hid, hget], le_refl _⟩
    | some r0 =>
      by_cases hterm : r0.lifecycleState.isTerminal = true
      · simp only [create, hget0, hterm, if_pos] at hc
        injection hc with h1
        subst h1
        by_cases hid : id0 = id
        · subst hid
          rw [hget0] at hget
          cases hget
          exact ⟨freshRecord id0 spec (r.generation + 1),
            by simp [Store.get_put], Nat.le_succ _⟩
        · exact ⟨r, by simp [Store.get_put, hid, hget], le_refl _⟩
      · simp only [create, hget0, hterm, if_neg] at hc
        cases hc
  | @updateOk _ id0 spec hc =>
    cases hget0 : Store.get s.store id0 with
    | none =>
      simp only [update, hget0] at hc
      cases hc
    | some r0 =>
      by_cases hcond : r0.lifecycleState = .Terminating ∨ r0.lifecycleState = .Terminated
      · simp only [update, hget0, if_pos hcond] at hc
        cases hc
      · simp only [update, hget0, if_neg hcond] at hc
        injection hc with h1
        subst h1
        by_cases hid : id0 = id
        · subst hid
          rw [hget0] at hget
          cases hget
          exact ⟨{ r with specSnapshot := spec, generation := r.generation + 1, lifecycleState := if r.lifecycleState = .Running then .Updating else r.lifecycleState },
            by simp [Store.get_put], Nat.le_succ _⟩
        · exact ⟨r, by simp [Store.get_put, hid, hget], le_refl _⟩
  | deleteStep id0 =>
    cases hget0 : Store.get s.store id0 with
    | none => exact ⟨r, by simp [delete, hget0, hget], le_refl _⟩
    | some r0 =>
      by_cases h1 : r0.lifecycleState = .Terminated ∨ r0.lifecycleState = .Terminating
      · exact ⟨r, by simp [delete, hget0, if_pos h1, hget], le_refl _⟩
      · by_cases h2 : r0.remoteHandle.isSome = true
        · by_cases hid : id0 = id
          · subst hid
            rw [hget0] at hget
            cases hget
            exact ⟨{ r with lifecycleState := .Terminating, generation := r.generation + 1 },
              by simp [delete, hget0, if_neg h1, h2, Store.get_put], Nat.le_succ _⟩
          · exact ⟨r, by simp [delete, hget0, if_neg h1, h2, Store.get_put, hid, hget], le_refl _⟩
        · by_cases hid : id0 = id
          · subst hid
            rw [hget0] at hget
            cases hget
            exact ⟨{ r with lifecycleState := .Terminated, remoteHandle := none, generation := r.generation + 1 },
              by simp [delete, hget0, if_neg h1, h2, Store.get_put], Nat.le_succ _⟩
          · exact ⟨r, by simp [delete, hget0, if_neg h1, h2, Store.get_put, hid, hget], le_refl _⟩
  | asyncStep e => exact applyEvent_generation e id r hget

/-- Claim C1: for every pod spec whose identity already maps to an
existing non-terminal record, Create returns a Conflict error; since
the error path produces no new engine state, the existing record is
left unchanged and is never silently overwritten. -/
theorem create_duplicate_conflict :
    ∀ (s : EngineState) (id spec : String) (r : PodRecord),
      Store.get s.store id = some r →
      r.lifecycleState.isTerminal = false →
      create s id spec = Except.error EngineError.Conflict := by
  intro s id spec r hget hterm
  simp [create, hget, hterm]

/-- Witness for C1 at a concrete state holding a Pending record. -/
theorem create_duplicate_conflict_witness :
    Store.get createDemoState.store "a" = some (freshRecord "a" "img" 1) ∧
    (freshRecord "a" "img" 1).lifecycleState.isTerminal = false ∧
    create createDemoState "a" "other" = Except.error EngineError.Conflict :=
  ⟨by rfl, by rfl,
   create_duplicate_conflict createDemoState "a" "other" (freshRecord "a" "img" 1)
     (by rfl) (by rfl)⟩

/-- Claim C2: Delete is idempotent — it never errors (it is a total
function on engine states), a missing record and a Terminated record
make it a no-op, and after any Delete a second Delete of the same
identity is a no-op. -/
theorem delete_idempotent :
    (∀ (s : EngineState) (id : String),
      Store.get s.store id = none → delete s id = s) ∧
    (∀ (s : EngineState) (id : String) (r : PodRecord),
      Store.get s.store id = some r →
      r.lifecycleState = LifecycleState.Terminated → delete s id = s) ∧
    (∀ (s : EngineState) (id : String), delete (delete s id) id = delete s id) := by
  refine ⟨?_, ?_, ?_⟩
  · intro s id hget
    simp [delete, hget]
  · intro s id r hget hterm
    simp [delete, hget, hterm]
  · intro s id
    cases hget : Store.get s.store id with
    | none => simp [delete, hget]
    | some r =>
      by_cases h1 : r.lifecycleState = .Terminated ∨ r.lifecycleState = .Terminating
      · simp [delete, hget, if_pos h1]
      · by_cases h2 : r.remoteHandle.isSome = true
        · simp only [delete, hget, if_neg h1, h2, if_pos]
          simp [delete, Store.get_put]
        · simp only [delete, hget, if_neg h1, h2, if_neg]
          simp [delete, Store.get_put]

/-- Witness for C2: no-op on a missing record, and a double delete of a
running record whose second call is a no-op. -/
theorem delete_idempotent_witness :
    Store.get initialState.store "b" = none ∧
    delete initialState "b" = initialState ∧
    delete (delete runningDemoState "a") "a" = delete runningDemoState "a" :=
  ⟨by rfl, delete_idempotent.1 initialState "b" (by rfl),
   delete_idempotent.2.2 runningDemoState "a"⟩

/-- Claim C3: in every reachable state of the engine, a record's
remote handle is set if and only if its lifecycle state is Running,
Updating or Terminating (the Creating transient is collapsed into the
single event in which the backend call returns); in particular no
record ever has its remote handle set while its state is Terminated. -/
theorem reachable_handle_iff_active :
    ∀ s : EngineState, Reachable s →
      handleInvariant s ∧
      (∀ id r, Store.get s.store id = some r →
        r.lifecycleState = LifecycleState.Terminated → r.remoteHandle = none) := by
  intro s h
  have inv : handleInvariant s := by
    induction h with
    | init =>
      intro id r hget
      simp [initialState, Store.get] at hget
    | step hr hs ih => exact step_preserves_handleOK hs ih
  refine ⟨inv, ?_⟩
  intro id r hget hterm
  have h2 := handleOK_isSome (inv id r hget)
  rw [hterm] at h2
  cases hrh : r.remoteHandle with
  | none => rfl
  | some v =>
    rw [hrh] at h2
    simp [statesWithHandle] at h2

/-- Witness for C3 at the state reached by one accepted Create. -/
theorem reachable_handle_iff_active_witness :
    Reachable createDemoState ∧ handleInvariant createDemoState :=
  ⟨Reachable.step Reachable.init
      (@Step.createOk initialState createDemoState "a" "img" (by rfl)),
   (reachable_handle_iff_active createDemoState
      (Reachable.step Reachable.init
        (@Step.createOk initialState createDemoState "a" "img" (by rfl)))).1⟩

/-- Claim C4: over any sequence of engine steps a record's generation
counter only increases, and any asynchronous result — Dispatcher task
completions and Reconciler observations alike — carrying a generation
older than the record's current generation is discarded: the engine
state — hence any more recent Dispatcher-applied state — is left
exactly as it was. -/
theorem generation_monotone_stale_discarded :
    (∀ s s' : EngineState, Relation.ReflTransGen Step s s' →
      ∀ (id : String) (r r' : PodRecord), Store.get s.store id = some r →
        Store.get s'.store id = some r' → r.generation ≤ r'.generation) ∧
    (∀ (s : EngineState) (e : AsyncEvent) (r : PodRecord),
      Store.get s.store (AsyncEvent.target e).1 = some r →
      (AsyncEvent.target e).2 < r.generation →
      applyEvent s e = s) := by
  constructor
  · have key : ∀ s s' : EngineState, Relation.ReflTransGen Step s s' →
        ∀ id r, Store.get s.store id = some r →
          ∃ r', Store.get s'.store id = some r' ∧ r.generation ≤ r'.generation := by
      intro s s' hchain
      induction hchain with
      | refl => exact fun id r hh => ⟨r, hh, le_refl _⟩
      | tail hab hbc ih =>
        intro id r hget
        obtain ⟨r1, hget1, hle1⟩ := ih id r hget
        obtain ⟨r2, hget2, hle2⟩ := step_generation_mono hbc id r1 hget1
        exact ⟨r2, hget2, le_trans hle1 hle2⟩
    intro s s' hchain id r r' hget hget'
    obtain ⟨r2, hget2, hle⟩ := key s s' hchain id r hget
    rw [hget'] at hget2
    cases hget2
    exact hle
  · intro s e r hget hlt
    cases e with
    | dispatchCreate id gen =>
      simp only [AsyncEvent.target] at hget hlt
      have hne : ¬ (r.generation = gen) := by omega
      simp [applyEvent, hget, hne]
    | backendStarted id gen handle =>
      simp only [AsyncEvent.target] at hget hlt
      have hne : ¬ (r.generation = gen) := by omega
      simp [applyEvent, hget, hne]
    | updateDone id gen =>
      simp only [AsyncEvent.target] at hget hlt
      have hne : ¬ (r.generation = gen) := by omega
      simp [applyEvent, hget, hne]
    | teardownDone id gen =>
      simp only [AsyncEvent.target] at hget hlt
      have hne : ¬ (r.generation = gen) := by omega
      simp [applyEvent, hget, hne]
    | backendFailed id gen err =>
      simp only [AsyncEvent.target] at hget hlt
      have hne : ¬ (r.generation = gen) := by omega
      simp [applyEvent, hget, hne]
    | observe id gen obs time =>
      simp only [AsyncEvent.target] at hget hlt
      have hne : ¬ (r.generation = gen) := by omega
      cases obs <;> simp [applyEvent, hget, hne]

/-- Witness for C4: a zero-step chain on the running demo state, and
two stale results at generation 1 against the record's generation 2 —
a Reconciler observation and a Dispatcher teardown completion — both
discarded. -/
theorem generation_monotone_stale_discarded_witness :
    runningDemoRecord.generation ≤ runningDemoRecord.generation ∧
    applyEvent runningDemoState (AsyncEvent.observe "a" 1 RemoteObs.running 5)
      = runningDemoState ∧
    applyEvent runningDemoState (AsyncEvent.teardownDone "a" 1)
      = runningDemoState :=
  ⟨generation_monotone_stale_discarded.1 runningDemoState runningDemoState
      Relation.ReflTransGen.refl "a" runningDemoRecord runningDemoRecord
      (by rfl) (by rfl),
   generation_monotone_stale_discarded.2 runningDemoState
      (AsyncEvent.observe "a" 1 RemoteObs.running 5) runningDemoRecord
      (by rfl) (by decide),
   generation_monotone_stale_discarded.2 runningDemoState
      (AsyncEvent.teardownDone "a" 1) runningDemoRecord
      (by rfl) (by decide)⟩

/-- Evaluation of the terminal-state check at `Terminated`. -/
theorem isTerminal_Terminated : LifecycleState.Terminated.isTerminal = true := rfl

/-- Evaluation of the terminal-state check at `Failed`. -/
theorem isTerminal_Failed : LifecycleState.Failed.isTerminal = true := rfl

/-- Claim C5: a Status Reconciler observation reporting a terminal
remote state for a live (non-terminal, handle-bearing) record at the
record's current generation invokes the Notification Sink exactly once
for that transition — the log grows by exactly one entry, never zero —
and repeating the observation after the transition appends nothing, so
the same transition is never notified twice. -/
theorem terminal_observation_notifies_once :
    ∀ (s : EngineState) (id : String) (r : PodRecord) (obs : RemoteObs)
      (t t' g' : Nat),
      Store.get s.store id = some r →
      r.lifecycleState.isTerminal = false →
      r.remoteHandle.isSome = true →
      obs ≠ RemoteObs.running →
      ((applyEvent s (AsyncEvent.observe id r.generation obs t)).notifications.length
          = s.notifications.length + 1) ∧
      ((applyEvent (applyEvent s (AsyncEvent.observe id r.generation obs t))
            (AsyncEvent.observe id g' obs t')).notifications
        = (applyEvent s (AsyncEvent.observe id r.generation obs t)).notifications) := by
  intro s id r obs t t' g' hget hterm hsome hobs
  cases obs with
  | running => exact absurd rfl hobs
  | exited clean =>
    cases clean with
    | true =>
      refine ⟨?_, ?_⟩
      · simp [applyEvent, hget, hterm, hsome]
      · simp [applyEvent, hget, hterm, hsome, Store.get_put, isTerminal_Terminated]
    | false =>
      refine ⟨?_, ?_⟩
      · simp [applyEvent, hget, hterm, hsome]
      · simp [applyEvent, hget, hterm, hsome, Store.get_put, isTerminal_Failed]
  | unreachable =>
    refine ⟨?_, ?_⟩
    · simp [applyEvent, hget, hterm, hsome]
    · simp [applyEvent, hget, hterm, hsome, Store.get_put, isTerminal_Failed]

/-- Witness for C5: a clean exit observed for the running demo record
appends exactly one notification. -/
theorem terminal_observation_notifies_once_witness :
    Store.get runningDemoState.store "a" = some runningDemoRecord ∧
    runningDemoRecord.lifecycleState.isTerminal = false ∧
    runningDemoRecord.remoteHandle.isSome = true ∧
    RemoteObs.exited true ≠ RemoteObs.running ∧
    (applyEvent runningDemoState
        (AsyncEvent.observe "a" runningDemoRecord.generation (RemoteObs.exited true) 9)).notifications.length
      = runningDemoState.notifications.length + 1 :=
  ⟨by rfl, by rfl, by rfl, by decide,
   (terminal_observation_notifies_once runningDemoState "a" runningDemoRecord
      (RemoteObs.exited true) 9 10 3 (by rfl) (by rfl) (by rfl) (by decide)).1⟩

/-- Claim C6: after Create of an identity is accepted, a healthy
backend run — the Dispatcher picking up the Creating task and the
backend start returning a handle, both at the accepted record's
generation — makes a subsequent GetPodStatus of that identity report
Running; the polling-interval bound of the spec is rendered as this
fixed two-event completion of the enqueued work. -/
theorem create_then_running :
    ∀ (s : EngineState) (id spec : String) (s' : EngineState) (r : PodRecord)
      (h : Nat),
      create s id spec = Except.ok s' →
      Store.get s'.store id = some r →
      getPodStatus (applyEvent (applyEvent s' (AsyncEvent.dispatchCreate id r.generation))
          (AsyncEvent.backendStarted id r.generation h)) id
        = Except.ok LifecycleState.Running := by
  intro s id spec s' r h hc hget
  cases hget0 : Store.get s.store id with
  | none =>
    simp only [create, hget0] at hc
    injection hc with h1
    subst h1
    simp only [Store.get_put, if_true] at hget
    cases hget
    simp [applyEvent, Store.get_put, getPodStatus, freshRecord]
  | some r0 =>
    by_cases hterm : r0.lifecycleState.isTerminal = true
    · simp only [create, hget0, hterm, if_pos] at hc
      injection hc with h1
      subst h1
      simp only [Store.get_put, if_true] at hget
      cases hget
      simp [applyEvent, Store.get_put, getPodStatus, freshRecord]
    · simp only [create, hget0, hterm, if_neg] at hc
      cases hc

/-- Witness for C6: creating identity `a` on the empty engine and
running the two completions yields a Running status. -/
theorem create_then_running_witness :
    create initialState "a" "img" = Except.ok createDemoState ∧
    Store.get createDemoState.store "a" = some (freshRecord "a" "img" 1) ∧
    getPodStatus (applyEvent (applyEvent createDemoState
          (AsyncEvent.dispatchCreate "a" (freshRecord "a" "img" 1).generation))
        (AsyncEvent.backendStarted "a" (freshRecord "a" "img" 1).generation 7)) "a"
      = Except.ok LifecycleState.Running :=
  ⟨by rfl, by rfl,
   create_then_running initialState "a" "img" createDemoState (freshRecord "a" "img" 1) 7
     (by rfl) (by rfl)⟩

/-- Claim C7: querying an identity unknown to the Pod Record Store
surfaces a NotFound error from both GetPod and GetPodStatus; neither
query succeeds. -/
theorem unknown_identity_not_found :
    ∀ (s : EngineState) (id : String),
      Store.get s.store id = none →
      getPod s id = Except.error EngineError.NotFound ∧
      getPodStatus s id = Except.error EngineError.NotFound := by
  intro s id hget
  exact ⟨by simp [getPod, hget], by simp [getPodStatus, hget]⟩

/-- Witness for C7 on the empty engine. -/
theorem unknown_identity_not_found_witness :
    Store.get initialState.store "ghost" = none ∧
    (getPod initialState "ghost" = Except.error EngineError.NotFound ∧
     getPodStatus initialState "ghost" = Except.error EngineError.NotFound) :=
  ⟨by rfl, unknown_identity_not_found initialState "ghost" (by rfl)⟩

/-- Claim C8: after NewApptainerProvider succeeds, the node capacity
list maps cpu to "64", memory to "512Gi" and pods to "640" unless the
corresponding APPTAINER_QUOTA_CPU / APPTAINER_QUOTA_MEMORY /
APPTAINER_QUOTA_POD variable is non-empty (then that value is used),
and it contains the nvidia.com/gpu resource exactly when
APPTAINER_QUOTA_GPU is non-empty. -/
theorem capacity_from_environment :
    ∀ (env : Env) (n os ip : String) (port : Int) (p : ApptainerProvider),
      (NewApptainerProvider env n os ip port).1 = some p →
      List.lookup "cpu" p.capacity
          = some (if env "APPTAINER_QUOTA_CPU" ≠ "" then env "APPTAINER_QUOTA_CPU" else "64") ∧
      List.lookup "memory" p.capacity
          = some (if env "APPTAINER_QUOTA_MEMORY" ≠ "" then env "APPTAINER_QUOTA_MEMORY" else "512Gi") ∧
      List.lookup "pods" p.capacity
          = some (if env "APPTAINER_QUOTA_POD" ≠ "" then env "APPTAINER_QUOTA_POD" else "640") ∧
      ((List.lookup gpuResourceName p.capacity).isSome = true ↔
        env "APPTAINER_QUOTA_GPU" ≠ "") := by
  intro env n os ip port p hp
  simp only [NewApptainerProvider, ApptainerProvider.setupNodeCapacity,
    Option.some.injEq] at hp
  subst hp
  by_cases hcpu : env "APPTAINER_QUOTA_CPU" ≠ "" <;>
  by_cases hmem : env "APPTAINER_QUOTA_MEMORY" ≠ "" <;>
  by_cases hpod : env "APPTAINER_QUOTA_POD" ≠ "" <;>
  by_cases hgpu : env "APPTAINER_QUOTA_GPU" ≠ "" <;>
  simp [ApptainerProvider.capacity, gpuResourceName, List.lookup,
    hcpu, hmem, hpod, hgpu]

/-- Witness for C8 under the demo environment (only the GPU quota
set). -/
theorem capacity_from_environment_witness :
    (NewApptainerProvider demoEnv "vk" "Linux" "10.0.0.1" 10250).1 = some demoProvider ∧
    List.lookup "cpu" demoProvider.capacity = some "64" ∧
    List.lookup "memory" demoProvider.capacity = some "512Gi" ∧
    List.lookup "pods" demoProvider.capacity = some "640" ∧
    ((List.lookup gpuResourceName demoProvider.capacity).isSome = true ↔
      demoEnv "APPTAINER_QUOTA_GPU" ≠ "") := by
  have hp : (NewApptainerProvider demoEnv "vk" "Linux" "10.0.0.1" 10250).1
      = some demoProvider := by decide
  have hmain := capacity_from_environment demoEnv "vk" "Linux" "10.0.0.1" 10250
    demoProvider hp
  refine ⟨hp, ?_, ?_, ?_, hmain.2.2.2⟩
  · simpa [demoEnv] using hmain.1
  · simpa [demoEnv] using hmain.2.1
  · simpa [demoEnv] using hmain.2.2.1

/-- Claim C9: ConfigureNode computes the same resource list for
capacity and allocatable, so after the call the node's allocatable
equals its capacity (both are the provider's capacity list). -/
theorem configureNode_allocatable_eq_capacity :
    ∀ (p : ApptainerProvider) (now : Nat) (node : Node),
      ((p.ConfigureNode now node).status.allocatable
        = (p.ConfigureNode now node).status.capacity) ∧
      (p.ConfigureNode now node).status.capacity = p.capacity := by
  intro p now node
  exact ⟨rfl, rfl⟩

/-- Claim C10: NewApptainerProvider never returns an error and never a
nil provider (setupNodeCapacity unconditionally reports success), so
the main.go glue that calls ConfigureNode on the provider before
checking the returned error never dereferences a nil pointer. -/
theorem new_provider_total :
    ∀ (env : Env) (n os ip : String) (port : Int) (now : Nat) (node : Node),
      (NewApptainerProvider env n os ip port).1.isSome = true ∧
      (NewApptainerProvider env n os ip port).2 = none ∧
      (runProviderSetup env n os ip port now node).isSome = true := by
  intro env n os ip port now node
  refine ⟨?_, ?_, ?_⟩ <;>
    simp [NewApptainerProvider, ApptainerProvider.setupNodeCapacity, runProviderSetup]

end VKApptainer
